import Mathlib

/-!
Verification of the validation / enrichment-client / formatting core of
`apollo_enrichment_app.py` (Apollo data-enrichment tool).

The three input validators in the source are `re.match` calls against fixed
patterns.  We embed them via a small regular-expression AST over `Char` with
character classes, an inductive language semantics `RE.M`, and an executable
Brzozowski-derivative matcher `RE.rmatch` proved equivalent to `RE.M`.
Python's `re.match(p, s)` with a pattern ending in `$` (no MULTILINE flag)
returns a match exactly when `s` is in the language of the pattern followed by
an optional single trailing newline; `pyAnchorEnd` encodes that convention.
-/

namespace Apollo

set_option maxRecDepth 100000

/-- Regular expressions over characters; `cls p` is a character class given by
a Boolean predicate.  Transliterated connective-by-connective from the
`re` patterns in the source. -/
inductive RE : Type where
  | zero : RE
  | eps : RE
  | cls : (Char → Bool) → RE
  | cat : RE → RE → RE
  | alt : RE → RE → RE
  | star : RE → RE

/-- Language semantics: `RE.M r s` holds when the word `s` is in the language
of the regular expression `r`. -/
inductive RE.M : RE → List Char → Prop where
  | eps : RE.M .eps []
  | cls {p : Char → Bool} {c : Char} : p c = true → RE.M (.cls p) [c]
  | cat {a b : RE} {s t : List Char} :
      RE.M a s → RE.M b t → RE.M (.cat a b) (s ++ t)
  | altL {a b : RE} {s : List Char} : RE.M a s → RE.M (.alt a b) s
  | altR {a b : RE} {s : List Char} : RE.M b s → RE.M (.alt a b) s
  | starNil {a : RE} : RE.M (.star a) []
  | starCons {a : RE} {s t : List Char} :
      RE.M a s → RE.M (.star a) t → RE.M (.star a) (s ++ t)

theorem RE.M_zero_iff {s : List Char} : RE.M .zero s ↔ False := by
  constructor
  · intro h; cases h
  · intro h; cases h

theorem RE.M_eps_iff {s : List Char} : RE.M .eps s ↔ s = [] := by
  constructor
  · intro h; cases h; rfl
  · intro h; subst h; exact .eps

theorem RE.M_cls_iff {p : Char → Bool} {s : List Char} :
    RE.M (.cls p) s ↔ ∃ c, s = [c] ∧ p c = true := by
  constructor
  · intro h; cases h with
    | cls hp => exact ⟨_, rfl, hp⟩
  · rintro ⟨c, rfl, hp⟩; exact .cls hp

theorem RE.M_cat_iff {a b : RE} {s : List Char} :
    RE.M (.cat a b) s ↔ ∃ u v, s = u ++ v ∧ RE.M a u ∧ RE.M b v := by
  constructor
  · intro h; cases h with
    | cat ha hb => exact ⟨_, _, rfl, ha, hb⟩
  · rintro ⟨u, v, rfl, ha, hb⟩; exact .cat ha hb

theorem RE.M_alt_iff {a b : RE} {s : List Char} :
    RE.M (.alt a b) s ↔ RE.M a s ∨ RE.M b s := by
  constructor
  · intro h; cases h with
    | altL h => exact Or.inl h
    | altR h => exact Or.inr h
  · rintro (h | h)
    · exact .altL h
    · exact .altR h

/-- Does the regular expression accept the empty word? -/
def RE.nullable : RE → Bool
  | .zero => false
  | .eps => true
  | .cls _ => false
  | .cat a b => a.nullable && b.nullable
  | .alt a b => a.nullable || b.nullable
  | .star _ => true

/-- Smart concatenation: simplifies `zero` and `eps` so derivative terms stay
small enough for kernel evaluation. -/
def RE.scat : RE → RE → RE
  | .zero, _ => .zero
  | _, .zero => .zero
  | .eps, b => b
  | a, .eps => a
  | a, b => .cat a b

/-- Smart alternation: simplifies `zero`. -/
def RE.salt : RE → RE → RE
  | .zero, b => b
  | a, .zero => a
  | a, b => .alt a b

/-- Brzozowski derivative with smart constructors. -/
def RE.deriv : RE → Char → RE
  | .zero, _ => .zero
  | .eps, _ => .zero
  | .cls p, c => if p c then .eps else .zero
  | .cat a b, c =>
      if a.nullable then .salt (.scat (a.deriv c) b) (b.deriv c)
      else .scat (a.deriv c) b
  | .alt a b, c => .salt (a.deriv c) (b.deriv c)
  | .star a, c => .scat (a.deriv c) (.star a)

/-- Executable matcher: repeated derivative, then nullability. -/
def RE.rmatch (r : RE) (s : List Char) : Bool :=
  (s.foldl RE.deriv r).nullable

theorem RE.M_cat_eps_left {b : RE} {s : List Char} :
    RE.M (.cat .eps b) s ↔ RE.M b s := by
  rw [RE.M_cat_iff]
  constructor
  · rintro ⟨u, v, rfl, hu, hv⟩
    rw [RE.M_eps_iff] at hu; subst hu; simpa using hv
  · intro h; exact ⟨[], s, rfl, .eps, h⟩

theorem RE.M_cat_eps_right {a : RE} {s : List Char} :
    RE.M (.cat a .eps) s ↔ RE.M a s := by
  rw [RE.M_cat_iff]
  constructor
  · rintro ⟨u, v, rfl, hu, hv⟩
    rw [RE.M_eps_iff] at hv; subst hv; simpa using hu
  · intro h; exact ⟨s, [], (List.append_nil s).symm, h, .eps⟩

theorem RE.M_cat_zero_left {b : RE} {s : List Char} :
    RE.M (.cat .zero b) s ↔ False := by
  rw [RE.M_cat_iff]
  constructor
  · rintro ⟨u, v, rfl, hu, _⟩; exact RE.M_zero_iff.mp hu
  · intro h; cases h

theorem RE.M_cat_zero_right {a : RE} {s : List Char} :
    RE.M (.cat a .zero) s ↔ False := by
  rw [RE.M_cat_iff]
  constructor
  · rintro ⟨u, v, rfl, _, hv⟩; exact RE.M_zero_iff.mp hv
  · intro h; cases h

theorem RE.M_scat_iff {a b : RE} {s : List Char} :
    RE.M (a.scat b) s ↔ RE.M (.cat a b) s := by
  cases a <;> cases b <;>
    simp [RE.scat, RE.M_zero_iff, RE.M_cat_eps_left, RE.M_cat_eps_right,
      RE.M_cat_zero_left, RE.M_cat_zero_right]

theorem RE.M_salt_iff {a b : RE} {s : List Char} :
    RE.M (a.salt b) s ↔ RE.M (.alt a b) s := by
  cases a <;> cases b <;>
    simp [RE.salt, RE.M_zero_iff, RE.M_alt_iff]

theorem RE.nullable_iff : ∀ r : RE, r.nullable = true ↔ RE.M r [] := by
  intro r
  induction r with
  | zero => simp [RE.nullable, RE.M_zero_iff]
  | eps => simp [RE.nullable, RE.M_eps_iff]
  | cls p => simp [RE.nullable, RE.M_cls_iff]
  | cat a b iha ihb =>
      simp only [RE.nullable, Bool.and_eq_true, iha, ihb, RE.M_cat_iff]
      constructor
      · rintro ⟨ha, hb⟩; exact ⟨[], [], rfl, ha, hb⟩
      · rintro ⟨u, v, huv, ha, hb⟩
        rcases List.append_eq_nil.mp huv.symm with ⟨rfl, rfl⟩
        exact ⟨ha, hb⟩
  | alt a b iha ihb =>
      simp [RE.nullable, Bool.or_eq_true, iha, ihb, RE.M_alt_iff]
  | star a _ => simp [RE.nullable]; exact .starNil

theorem RE.star_cons_inv {r : RE} {w : List Char} (h : RE.M r w) :
    ∀ {a : RE}, r = .star a → ∀ {c : Char} {s : List Char}, w = c :: s →
      ∃ u v, s = u ++ v ∧ RE.M a (c :: u) ∧ RE.M (.star a) v := by
  induction h with
  | eps => intro a hr; cases hr
  | cls _ => intro a hr; cases hr
  | cat _ _ => intro a hr; cases hr
  | altL _ => intro a hr; cases hr
  | altR _ => intro a hr; cases hr
  | starNil => intro a _ c s hw; cases hw
  | @starCons a0 sw tw h1 h2 ih1 ih2 =>
      intro a hr c s hw
      injection hr with hr'
      subst hr'
      cases sw with
      | nil =>
          exact ih2 rfl (by simpa using hw)
      | cons c1 s1' =>
          rw [List.cons_append] at hw
          injection hw with hw1 hw2
          subst hw1
          subst hw2
          exact ⟨s1', tw, rfl, h1, h2⟩

theorem RE.deriv_iff :
    ∀ (r : RE) (c : Char) (s : List Char),
      RE.M (r.deriv c) s ↔ RE.M r (c :: s) := by
  intro r
  induction r with
  | zero =>
      intro c s
      simp [RE.deriv, RE.M_zero_iff]
  | eps =>
      intro c s
      simp [RE.deriv, RE.M_zero_iff, RE.M_eps_iff]
  | cls p =>
      intro c s
      by_cases hp : p c = true
      · simp only [RE.deriv, hp, if_true, RE.M_eps_iff, RE.M_cls_iff]
        constructor
        · rintro rfl; exact ⟨c, rfl, hp⟩
        · rintro ⟨d, hd, _⟩
          simp only [List.cons.injEq] at hd
          exact hd.2
      · simp only [RE.deriv, hp, if_false, Bool.false_eq_true, RE.M_zero_iff,
          RE.M_cls_iff, false_iff]
        rintro ⟨d, hd, hpd⟩
        simp only [List.cons.injEq] at hd
        obtain ⟨rfl, rfl⟩ := hd
        exact hp hpd
  | cat a b iha ihb =>
      intro c s
      by_cases hn : a.nullable = true
      · simp only [RE.deriv, hn, if_true, RE.M_salt_iff, RE.M_alt_iff,
          RE.M_scat_iff, RE.M_cat_iff]
        constructor
        · rintro (⟨u, v, rfl, hu, hv⟩ | hb')
          · exact ⟨c :: u, v, rfl, (iha c u).mp hu, hv⟩
          · exact ⟨[], c :: s, rfl, (RE.nullable_iff a).mp hn, (ihb c s).mp hb'⟩
        · rintro ⟨u, v, huv, hu, hv⟩
          cases u with
          | nil =>
              simp only [List.nil_append] at huv
              subst huv
              exact Or.inr ((ihb c s).mpr hv)
          | cons c1 u' =>
              simp only [List.cons_append, List.cons.injEq] at huv
              obtain ⟨rfl, rfl⟩ := huv
              exact Or.inl ⟨u', v, rfl, (iha c u').mpr hu, hv⟩
      · simp only [RE.deriv, hn, if_false, Bool.false_eq_true, RE.M_scat_iff,
          RE.M_cat_iff]
        constructor
        · rintro ⟨u, v, rfl, hu, hv⟩
          exact ⟨c :: u, v, rfl, (iha c u).mp hu, hv⟩
        · rintro ⟨u, v, huv, hu, hv⟩
          cases u with
          | nil =>
              exact absurd ((RE.nullable_iff a).mpr hu) (by simpa using hn)
          | cons c1 u' =>
              simp only [List.cons_append, List.cons.injEq] at huv
              obtain ⟨rfl, rfl⟩ := huv
              exact ⟨u', v, rfl, (iha c u').mpr hu, hv⟩
  | alt a b iha ihb =>
      intro c s
      simp [RE.deriv, RE.M_salt_iff, RE.M_alt_iff, iha, ihb]
  | star a iha =>
      intro c s
      simp only [RE.deriv, RE.M_scat_iff, RE.M_cat_iff]
      constructor
      · rintro ⟨u, v, rfl, hu, hv⟩
        exact RE.M.starCons ((iha c u).mp hu) hv
      · intro h
        obtain ⟨u, v, rfl, hu, hv⟩ := RE.star_cons_inv h rfl rfl
        exact ⟨u, v, rfl, (iha c u).mpr hu, hv⟩

theorem RE.rmatch_iff : ∀ (s : List Char) (r : RE),
    r.rmatch s = true ↔ RE.M r s := by
  intro s
  induction s with
  | nil => intro r; exact RE.nullable_iff r
  | cons c s ih =>
      intro r
      have : r.rmatch (c :: s) = (r.deriv c).rmatch s := rfl
      rw [this, ih (r.deriv c)]
      exact RE.deriv_iff r c s

/-!  Character classes and pattern combinators used by the three source
patterns.  `Char.isAlpha` / `Char.isDigit` are the ASCII ranges `A-Za-z` /
`0-9`, exactly the sets denoted by the bracket expressions in the source. -/

/-- Class `[a-zA-Z0-9]`. -/
def isAlnumCh (c : Char) : Bool := c.isAlpha || c.isDigit

/-- Class `[a-zA-Z0-9-]`. -/
def isAlnumHyCh (c : Char) : Bool := isAlnumCh c || c == '-'

/-- Class `[a-zA-Z]`. -/
def isAlphaCh (c : Char) : Bool := c.isAlpha

/-- Class `[a-zA-Z0-9._%+-]` (local part of the email pattern). -/
def isEmailLocalCh (c : Char) : Bool :=
  isAlnumCh c || c == '.' || c == '_' || c == '%' || c == '+' || c == '-'

/-- Class `[a-zA-Z0-9.-]` (host part of the email pattern). -/
def isEmailHostCh (c : Char) : Bool := isAlnumCh c || c == '.' || c == '-'

/-- A single literal character. -/
def chr (c : Char) : RE := .cls (fun d => d == c)

/-- A literal string of characters, as nested concatenation. -/
def lit : List Char → RE
  | [] => .eps
  | c :: cs => .cat (chr c) (lit cs)

/-- `r?` - zero or one occurrence. -/
def opt (r : RE) : RE := .alt .eps r

/-- `r+` - one or more occurrences. -/
def plus1 (r : RE) : RE := .cat r (.star r)

/-- `r{2,}` - two or more occurrences. -/
def rep2plus (r : RE) : RE := .cat r (.cat r (.star r))

/-- `r{0,n}` - at most `n` occurrences. -/
def repAtMost : Nat → RE → RE
  | 0, _ => .eps
  | n + 1, r => .alt .eps (.cat r (repAtMost n r))

/-- Python `re` semantics of a final `$` (no MULTILINE): the pattern may be
followed by one optional trailing newline.  `re.match` anchors at the start,
so `bool(re.match(p + "$", s))` is membership of `s` in the language of
`p` followed by an optional newline. -/
def pyAnchorEnd (r : RE) : RE := .cat r (opt (chr '\n'))

/-- Core of the domain pattern
`^[a-zA-Z0-9][a-zA-Z0-9-]{0,61}[a-zA-Z0-9]?\.([a-zA-Z]{2,})$`
(the anchors and the final `$` newline allowance are added by
`pyAnchorEnd`; the capturing group has no effect on acceptance). -/
def domainCore : RE :=
  .cat (.cls isAlnumCh)
    (.cat (repAtMost 61 (.cls isAlnumHyCh))
      (.cat (opt (.cls isAlnumCh))
        (.cat (chr '.') (rep2plus (.cls isAlphaCh)))))

/-- Core of the email pattern
`^[a-zA-Z0-9._%+-]+@[a-zA-Z0-9.-]+\.[a-zA-Z]{2,}$`. -/
def emailCore : RE :=
  .cat (plus1 (.cls isEmailLocalCh))
    (.cat (chr '@')
      (.cat (plus1 (.cls isEmailHostCh))
        (.cat (chr '.') (rep2plus (.cls isAlphaCh)))))

/-- Core of the LinkedIn pattern
`^https?://(www\.)?linkedin\.com/(in|company)/[a-zA-Z0-9-]+/?$`.
The leading literal is spelled as `'h'` then `"ttp"` so that the first
character of any match is exposed by construction. -/
def linkedinCore : RE :=
  .cat (chr 'h')
    (.cat (lit ['t', 't', 'p'])
      (.cat (opt (chr 's'))
        (.cat (lit [':', '/', '/'])
          (.cat (opt (lit ['w', 'w', 'w', '.']))
            (.cat (lit ['l', 'i', 'n', 'k', 'e', 'd', 'i', 'n', '.', 'c', 'o', 'm', '/'])
              (.cat (.alt (lit ['i', 'n']) (lit ['c', 'o', 'm', 'p', 'a', 'n', 'y']))
                (.cat (chr '/')
                  (.cat (plus1 (.cls isAlnumHyCh)) (opt (chr '/'))))))))))

/-- `validate_domain` from the source:
`if not domain: return False` then
`bool(re.match(domain_pattern, domain))`. -/
def validate_domain (s : String) : Bool :=
  if s.data.isEmpty then false else (pyAnchorEnd domainCore).rmatch s.data

/-- `validate_email` from the source. -/
def validate_email (s : String) : Bool :=
  if s.data.isEmpty then false else (pyAnchorEnd emailCore).rmatch s.data

/-- `validate_linkedin_url` from the source: the empty string is accepted
(`if not url: return True` - optional field), otherwise the pattern decides. -/
def validate_linkedin_url (s : String) : Bool :=
  if s.data.isEmpty then true else (pyAnchorEnd linkedinCore).rmatch s.data

/-!  JSON values and Python-dictionary operations used by the client and the
formatter. -/

/-- A decoded JSON value (`response.json()` output and its sub-objects).
Numbers are modelled as integers; the payload fields the formatter renders
are strings and integers. -/
inductive JValue : Type where
  | null : JValue
  | bool : Bool → JValue
  | num : Int → JValue
  | str : String → JValue
  | arr : List JValue → JValue
  | obj : List (String × JValue) → JValue

/-- Python truthiness of a JSON value: `None`, `False`, `0`, `""`, `[]` and
an empty dict are falsy, everything else truthy. -/
def truthy : JValue → Bool
  | .null => false
  | .bool b => b
  | .num n => n != 0
  | .str s => !s.isEmpty
  | .arr l => !l.isEmpty
  | .obj o => !o.isEmpty

mutual

/-- Rendering of a value inside an f-string, Python `str()`.  Container
rendering follows Python `repr` in shape (no claim depends on it). -/
def pyStr : JValue → String
  | .null => "None"
  | .bool true => "True"
  | .bool false => "False"
  | .num n => toString n
  | .str s => s
  | .arr l => "[" ++ pyStrList l ++ "]"
  | .obj o => "\x7b" ++ pyStrObj o ++ "\x7d"

/-- Python `repr()` of a value (used for elements nested in containers). -/
def pyRepr : JValue → String
  | .null => "None"
  | .bool true => "True"
  | .bool false => "False"
  | .num n => toString n
  | .str s => "\x27" ++ s ++ "\x27"
  | .arr l => "[" ++ pyStrList l ++ "]"
  | .obj o => "\x7b" ++ pyStrObj o ++ "\x7d"

/-- Comma-separated reprs of the elements of a list. -/
def pyStrList : List JValue → String
  | [] => ""
  | [v] => pyRepr v
  | v :: vs => pyRepr v ++ ", " ++ pyStrList vs

/-- Comma-separated reprs of the entries of a dict. -/
def pyStrObj : List (String × JValue) → String
  | [] => ""
  | [(k, v)] => "\x27" ++ k ++ "\x27: " ++ pyRepr v
  | (k, v) :: kvs => "\x27" ++ k ++ "\x27: " ++ pyRepr v ++ ", " ++ pyStrObj kvs

end

/-- Python `dict.get(key)` on a JSON object (no default: absent gives
`none`, i.e. `None`).  Keys of a Python dict are unique, so first-match
lookup is exact. -/
def jget (o : List (String × JValue)) (k : String) : Option JValue :=
  (o.find? (fun kv => kv.1 == k)).map (fun kv => kv.2)

/-- `dict.get(key)` lifted to a value known to be a mapping.  The formatter
only ever applies it to the organization / person payload; on a non-mapping
Python would raise `AttributeError`, a case no claim reaches (they quantify
over mapping payloads), modelled here as an absent key. -/
def jvGet (d : JValue) (k : String) : Option JValue :=
  match d with
  | .obj o => jget o k
  | _ => none

/-- `data.get(key, 'N/A')` followed by f-string rendering: the fallback
`"N/A"` is used exactly when the key is absent; a present value (falsy or
not) renders via `pyStr`. -/
def getF (d : JValue) (k : String) : String :=
  match jvGet d k with
  | some v => pyStr v
  | none => "N/A"

/-- One formatted output line
`f"• **{label}:** {data.get(key, 'N/A')}\n"`. -/
def fieldLine (label : String) (d : JValue) (k : String) : String :=
  "• **" ++ label ++ ":** " ++ getF d k ++ "\n"

/-- The contact formatter's Company field:
`data.get('organization', {}).get('name', 'N/A') if data.get('organization')
else 'N/A'` — note the extra truthiness test on the nested object. -/
def orgNameField (d : JValue) : String :=
  match jvGet d "organization" with
  | some v => if truthy v then getF v "name" else "N/A"
  | none => "N/A"

/-- The contact formatter's Phone field:
`data.get('phone_numbers', [{}])[0].get('raw_number', 'N/A') if
data.get('phone_numbers') else 'N/A'`.  A truthy non-sequence value would
raise in Python; no claim reaches that case, modelled as the fallback. -/
def phoneField (d : JValue) : String :=
  match jvGet d "phone_numbers" with
  | some (.arr (x :: _)) => getF x "raw_number"
  | _ => "N/A"

/-!  The enrichment client.  `requests.post` and the surrounding
try/except of `ApolloAPI.enrich_company` / `enrich_contact` are modelled by
an explicit outcome value: the HTTP call either returns status 200 with a
decoded JSON object body, returns a non-200 status with a raw body text,
raises a `requests.exceptions.RequestException` (connection error, timeout,
DNS failure), or raises any other exception.  The API key travels in a
header and never influences the result shape, so it is not part of the
outcome. -/

inductive HttpOutcome : Type where
  | ok : List (String × JValue) → HttpOutcome
  | httpErr : Nat → String → HttpOutcome
  | requestExc : String → HttpOutcome
  | otherExc : String → HttpOutcome

/-- The loosely-typed result dictionary
`{"status": ..., "data": ..., "message": ...}`. -/
structure EnrichmentResult : Type where
  status : String
  data : JValue
  message : String

/-- Whitespace test matching Python `str.strip` on the inputs the claims
use (space, tab, CR, LF). -/
def isWsCh (c : Char) : Bool := c.isWhitespace

/-- Python `s.strip()` on the character list. -/
def stripWs (l : List Char) : List Char :=
  ((l.dropWhile isWsCh).reverse.dropWhile isWsCh).reverse

/-- `not s.strip()`: the string is empty or all whitespace. -/
def pyBlank (s : String) : Bool := (stripWs s.data).isEmpty

/-- `s.strip()` as a string. -/
def pyStrip (s : String) : String := String.mk (stripWs s.data)

/-- `s.strip() if s else None` - the optional-argument convention at the
call sites of the client. -/
def pyOptStrip (s : String) : Option String :=
  if s.data.isEmpty then none else some (pyStrip s)

/-- Truthiness of an optional string argument (`if linkedin_url:` inside the
client): `None` and the empty string are falsy. -/
def optTruthy : Option String → Bool
  | none => false
  | some s => !s.data.isEmpty

/-- Request body built by `ApolloAPI.enrich_company`: `domain` always,
optional fields only when truthy, renamed to the provider's field names. -/
def companyParams (domain : String) (lu cn cc : Option String) :
    List (String × String) :=
  [("domain", domain)]
    ++ (if optTruthy lu then [("linkedin_url", lu.getD "")] else [])
    ++ (if optTruthy cn then [("name", cn.getD "")] else [])
    ++ (if optTruthy cc then [("country", cc.getD "")] else [])

/-- Request body built by `ApolloAPI.enrich_contact`. -/
def contactParams (email : String) (lu fn ln : Option String) :
    List (String × String) :=
  [("email", email)]
    ++ (if optTruthy lu then [("linkedin_url", lu.getD "")] else [])
    ++ (if optTruthy fn then [("first_name", fn.getD "")] else [])
    ++ (if optTruthy ln then [("last_name", ln.getD "")] else [])

/-- Outcome normalization of `ApolloAPI.enrich_company`: the `if/else` on
`response.status_code` plus the two `except` clauses. -/
def handleCompanyOutcome : HttpOutcome → EnrichmentResult
  | .ok body =>
      ⟨"success", (jget body "organization").getD (.obj []),
        "Company data enriched successfully"⟩
  | .httpErr code text =>
      ⟨"error", .obj [], "API Error: " ++ toString code ++ " - " ++ text⟩
  | .requestExc e => ⟨"error", .obj [], "Request failed: " ++ e⟩
  | .otherExc e => ⟨"error", .obj [], "Unexpected error: " ++ e⟩

/-- Outcome normalization of `ApolloAPI.enrich_contact`. -/
def handleContactOutcome : HttpOutcome → EnrichmentResult
  | .ok body =>
      ⟨"success", (jget body "person").getD (.obj []),
        "Contact data enriched successfully"⟩
  | .httpErr code text =>
      ⟨"error", .obj [], "API Error: " ++ toString code ++ " - " ++ text⟩
  | .requestExc e => ⟨"error", .obj [], "Request failed: " ++ e⟩
  | .otherExc e => ⟨"error", .obj [], "Unexpected error: " ++ e⟩

/-- `ApolloAPI.enrich_company`, with the network modelled as a function from
the request body to an outcome. -/
def enrich_company (client : List (String × String) → HttpOutcome)
    (domain : String) (lu cn cc : Option String) : EnrichmentResult :=
  handleCompanyOutcome (client (companyParams domain lu cn cc))

/-- `ApolloAPI.enrich_contact`. -/
def enrich_contact (client : List (String × String) → HttpOutcome)
    (email : String) (lu fn ln : Option String) : EnrichmentResult :=
  handleContactOutcome (client (contactParams email lu fn ln))

/-- Success-branch formatting of `enrich_company_data` (the sequence of
`formatted_result +=` lines). -/
def formatCompanySuccess (r : EnrichmentResult) : String :=
  "✅ " ++ r.message ++ "\n\n"
    ++ "📊 **Enriched Company Data:**\n"
    ++ fieldLine "Name" r.data "name"
    ++ fieldLine "Domain" r.data "domain"
    ++ fieldLine "Website" r.data "website_url"
    ++ fieldLine "LinkedIn" r.data "linkedin_url"
    ++ fieldLine "Industry" r.data "industry"
    ++ fieldLine "Company Size" r.data "estimated_num_employees"
    ++ "• **Location:** " ++ getF r.data "city" ++ ", " ++ getF r.data "state"
      ++ ", " ++ getF r.data "country" ++ "\n"
    ++ fieldLine "Founded" r.data "founded_year"
    ++ fieldLine "Description" r.data "short_description"

/-- Success-branch formatting of `enrich_contact_data`. -/
def formatContactSuccess (r : EnrichmentResult) : String :=
  "✅ " ++ r.message ++ "\n\n"
    ++ "👤 **Enriched Contact Data:**\n"
    ++ "• **Name:** " ++ getF r.data "first_name" ++ " "
      ++ getF r.data "last_name" ++ "\n"
    ++ fieldLine "Email" r.data "email"
    ++ fieldLine "LinkedIn" r.data "linkedin_url"
    ++ fieldLine "Title" r.data "title"
    ++ "• **Company:** " ++ orgNameField r.data ++ "\n"
    ++ "• **Location:** " ++ getF r.data "city" ++ ", " ++ getF r.data "state"
      ++ ", " ++ getF r.data "country" ++ "\n"
    ++ "• **Phone:** " ++ phoneField r.data ++ "\n"
    ++ fieldLine "Twitter" r.data "twitter_url"
    ++ fieldLine "Bio" r.data "headline"

/-- Entry point `enrich_company_data(api_key, domain, linkedin_url,
company_name, country_code)`: four pre-flight checks in source order, then
the client call, then formatting. -/
def enrich_company_data (client : List (String × String) → HttpOutcome)
    (api_key domain linkedin_url company_name country_code : String) :
    String :=
  if pyBlank api_key then "❌ Error: Please enter your Apollo API key"
  else if pyBlank domain then "❌ Error: Company domain is required"
  else if !validate_domain domain then
    "❌ Error: Please enter a valid domain (e.g., example.com)"
  else if !linkedin_url.data.isEmpty && !validate_linkedin_url linkedin_url then
    "❌ Error: Please enter a valid LinkedIn URL (e.g., https://linkedin.com/company/example)"
  else
    let result := enrich_company client (pyStrip domain)
      (pyOptStrip linkedin_url) (pyOptStrip company_name)
      (pyOptStrip country_code)
    if result.status == "success" then formatCompanySuccess result
    else "❌ " ++ result.message

/-- Entry point `enrich_contact_data(api_key, email, linkedin_url,
first_name, last_name)`. -/
def enrich_contact_data (client : List (String × String) → HttpOutcome)
    (api_key email linkedin_url first_name last_name : String) : String :=
  if pyBlank api_key then "❌ Error: Please enter your Apollo API key"
  else if pyBlank email then "❌ Error: Email address is required"
  else if !validate_email email then
    "❌ Error: Please enter a valid email address"
  else if !linkedin_url.data.isEmpty && !validate_linkedin_url linkedin_url then
    "❌ Error: Please enter a valid LinkedIn URL (e.g., https://linkedin.com/in/username)"
  else
    let result := enrich_contact client (pyStrip email)
      (pyOptStrip linkedin_url) (pyOptStrip first_name)
      (pyOptStrip last_name)
    if result.status == "success" then formatContactSuccess result
    else "❌ " ++ result.message

/-!  Structural inversion lemmas for the pattern combinators, used to read
off the shape of any string a validator accepts. -/

theorem M_chr_iff {c : Char} {s : List Char} :
    RE.M (chr c) s ↔ s = [c] := by
  simp only [chr, RE.M_cls_iff, beq_iff_eq]
  constructor
  · rintro ⟨d, rfl, rfl⟩; rfl
  · rintro rfl; exact ⟨c, rfl, rfl⟩

theorem M_opt_iff {r : RE} {s : List Char} :
    RE.M (opt r) s ↔ s = [] ∨ RE.M r s := by
  simp [opt, RE.M_alt_iff, RE.M_eps_iff]

theorem star_cls_inv {p : Char → Bool} :
    ∀ u, RE.M (.star (.cls p)) u → ∀ c ∈ u, p c = true := by
  intro u
  induction u with
  | nil => intro _ c hc; cases hc
  | cons c0 u' ih =>
      intro h d hd
      obtain ⟨u1, v, hs, hc, hv⟩ := RE.star_cons_inv h rfl rfl
      rw [RE.M_cls_iff] at hc
      obtain ⟨e, he, hpe⟩ := hc
      injection he with he1 he2
      subst he1
      subst he2
      rw [List.nil_append] at hs
      subst hs
      rcases List.mem_cons.mp hd with rfl | hd'
      · exact hpe
      · exact ih hv d hd'

theorem repAtMost_cls_inv {p : Char → Bool} :
    ∀ (n : Nat) (u), RE.M (repAtMost n (.cls p)) u →
      u.length ≤ n ∧ ∀ c ∈ u, p c = true := by
  intro n
  induction n with
  | zero =>
      intro u h
      rw [repAtMost, RE.M_eps_iff] at h
      subst h
      simp
  | succ n ih =>
      intro u h
      rw [repAtMost, RE.M_alt_iff] at h
      rcases h with h | h
      · rw [RE.M_eps_iff] at h; subst h; simp
      · rw [RE.M_cat_iff] at h
        obtain ⟨a, b, rfl, ha, hb⟩ := h
        rw [RE.M_cls_iff] at ha
        obtain ⟨c, rfl, hc⟩ := ha
        obtain ⟨hlen, hall⟩ := ih b hb
        refine ⟨by simpa using Nat.succ_le_succ hlen, ?_⟩
        intro d hd
        rcases List.mem_cons.mp hd with rfl | hd'
        · exact hc
        · exact hall d hd'

theorem rep2plus_cls_inv {p : Char → Bool} {u : List Char}
    (h : RE.M (rep2plus (.cls p)) u) :
    2 ≤ u.length ∧ ∀ c ∈ u, p c = true := by
  rw [rep2plus, RE.M_cat_iff] at h
  obtain ⟨a, b, rfl, ha, hb⟩ := h
  rw [RE.M_cls_iff] at ha
  obtain ⟨c1, rfl, hc1⟩ := ha
  rw [RE.M_cat_iff] at hb
  obtain ⟨a2, d, rfl, ha2, hd⟩ := hb
  rw [RE.M_cls_iff] at ha2
  obtain ⟨c2, rfl, hc2⟩ := ha2
  have hall := star_cls_inv d hd
  constructor
  · simp
  · intro e he
    simp at he
    rcases he with rfl | rfl | he'
    · exact hc1
    · exact hc2
    · exact hall e he'

/-- The shape of every string `validate_domain` accepts: one alphanumeric
character, then up to 62 more alphanumeric-or-hyphen characters (the last of
which must be alphanumeric only when all 62 are used), a dot, an alphabetic
TLD of length at least 2, and an optional single trailing newline. -/
def DomainShape (s : String) : Prop :=
  ∃ (c0 : Char) (rest tld nl : List Char),
    s.data = c0 :: (rest ++ '.' :: (tld ++ nl)) ∧
    isAlnumCh c0 = true ∧
    (∀ c ∈ rest, isAlnumHyCh c = true) ∧
    rest.length ≤ 62 ∧
    (rest.length = 62 → ∃ cl, rest.getLast? = some cl ∧ isAlnumCh cl = true) ∧
    2 ≤ tld.length ∧
    (∀ c ∈ tld, isAlphaCh c = true) ∧
    (nl = [] ∨ nl = ['\n'])

theorem domainShape_of_valid {s : String} (h : validate_domain s = true) :
    DomainShape s := by
  unfold validate_domain at h
  by_cases he : s.data.isEmpty
  · rw [if_pos he] at h
    cases h
  · rw [if_neg he] at h
    replace h := (RE.rmatch_iff _ _).mp h
    obtain ⟨u, w, hsw, hcore, hnl⟩ := RE.M_cat_iff.mp h
    rw [M_opt_iff, M_chr_iff] at hnl
    unfold domainCore at hcore
    obtain ⟨a, r1, hu, ha, h1⟩ := RE.M_cat_iff.mp hcore
    rw [RE.M_cls_iff] at ha
    obtain ⟨c0, rfl, hc0⟩ := ha
    obtain ⟨r, r2, hr1, hrep, h2⟩ := RE.M_cat_iff.mp h1
    obtain ⟨o, r3, hr2, hopt, h3⟩ := RE.M_cat_iff.mp h2
    obtain ⟨d, t, hr3, hdot, htld⟩ := RE.M_cat_iff.mp h3
    rw [M_chr_iff] at hdot
    subst hdot
    obtain ⟨hrlen, hrall⟩ := repAtMost_cls_inv 61 r hrep
    rw [M_opt_iff, RE.M_cls_iff] at hopt
    obtain ⟨ht2, hta⟩ := rep2plus_cls_inv htld
    subst hr3
    subst hr2
    subst hr1
    subst hu
    refine ⟨c0, r ++ o, t, w, ?_, hc0, ?_, ?_, ?_, ht2, hta, hnl⟩
    · rw [hsw]; simp
    · intro c hc
      rcases List.mem_append.mp hc with hc' | hc'
      · exact hrall c hc'
      · rcases hopt with rfl | ⟨c1, rfl, hc1⟩
        · cases hc'
        · rcases List.mem_singleton.mp hc' with rfl
          simp [isAlnumHyCh, hc1]
    · rcases hopt with rfl | ⟨c1, rfl, hc1⟩ <;> simp <;> omega
    · intro hlen
      rcases hopt with rfl | ⟨c1, rfl, hc1⟩
      · rw [List.append_nil] at hlen
        omega
      · exact ⟨c1, List.getLast?_concat r, hc1⟩

/-- Conversely, any string in the language of the documented core pattern
(an exact match, no trailing-newline allowance) is accepted. -/
theorem valid_of_core {s : String} (h : RE.M domainCore s.data) :
    validate_domain s = true := by
  have hne : s.data.isEmpty = false := by
    unfold domainCore at h
    obtain ⟨a, r1, hu, ha, _⟩ := RE.M_cat_iff.mp h
    rw [RE.M_cls_iff] at ha
    obtain ⟨c0, rfl, _⟩ := ha
    rw [hu]
    rfl
  unfold validate_domain
  rw [hne]
  simp only [Bool.false_eq_true, if_false]
  apply (RE.rmatch_iff _ _).mpr
  show RE.M (.cat domainCore (opt (chr '\n'))) s.data
  have hsplit : s.data = s.data ++ [] := by simp
  rw [hsplit]
  exact RE.M.cat h (M_opt_iff.mpr (Or.inl rfl))

/-- Removal of at most one trailing newline. -/
def stripNL (l : List Char) : List Char :=
  match l.reverse with
  | c :: t => if c = '\n' then t.reverse else l
  | [] => l

/-- Does the list end in a dot-separated all-alphabetic suffix of length at
least 2?  (Decidable form of the claim's "dot-separated alphabetic suffix".) -/
def hasTldSuffixB (l : List Char) : Bool :=
  (List.range l.length).any (fun i =>
    (l[i]? == some '.') && decide (2 ≤ l.length - (i + 1))
      && (l.drop (i + 1)).all isAlphaCh)

theorem stripNL_append_newline (x : List Char) : stripNL (x ++ ['\n']) = x := by
  unfold stripNL
  rw [List.reverse_append]
  simp

theorem stripNL_of_rev_ne (x : List Char) (c : Char) (t : List Char)
    (hrev : x.reverse = c :: t) (hc : c ≠ '\n') : stripNL x = x := by
  unfold stripNL
  rw [hrev]
  simp [hc]

theorem hasTld_of_decomp (pre tld : List Char) (ht2 : 2 ≤ tld.length)
    (hta : ∀ c ∈ tld, isAlphaCh c = true) :
    hasTldSuffixB (pre ++ '.' :: tld) = true := by
  unfold hasTldSuffixB
  rw [List.any_eq_true]
  refine ⟨pre.length, ?_, ?_⟩
  · rw [List.mem_range]
    simp only [List.length_append, List.length_cons]
    omega
  · have h1 : (pre ++ '.' :: tld)[pre.length]? = some '.' := by
      rw [List.getElem?_append_right (le_refl _)]
      simp
    have h2 : (pre ++ '.' :: tld).drop (pre.length + 1) = tld := by
      rw [List.append_cons pre '.' tld]
      have hl : pre.length + 1 = (pre ++ ['.']).length := by simp
      rw [hl, List.drop_left]
    have h3 : (pre ++ '.' :: tld).length - (pre.length + 1) = tld.length := by
      simp only [List.length_append, List.length_cons]
      omega
    rw [h1, h2, h3]
    simp [List.all_eq_true, ht2]
    exact hta

/-- Any accepted domain, after removal of the optional trailing newline, ends
in a dot-separated alphabetic suffix of length at least 2. -/
theorem tldSuffix_of_valid {s : String} (hv : validate_domain s = true) :
    hasTldSuffixB (stripNL s.data) = true := by
  obtain ⟨c0, rest, tld, nl, heq, _, _, _, _, ht2, hta, hnl⟩ :=
    domainShape_of_valid hv
  rcases hnl with rfl | rfl
  · rw [List.append_nil] at heq
    have hx : s.data = (c0 :: rest) ++ '.' :: tld := by rw [heq]; rfl
    obtain ⟨cl, tl', hrev⟩ : ∃ cl tl', tld.reverse = cl :: tl' := by
      cases htr : tld.reverse with
      | nil =>
          rw [List.reverse_eq_nil_iff] at htr
          subst htr
          simp at ht2
      | cons cl tl' => exact ⟨cl, tl', rfl⟩
    have hcl : isAlphaCh cl = true := by
      apply hta
      rw [← List.mem_reverse, hrev]
      exact List.mem_cons_self cl tl'
    have hclne : cl ≠ '\n' := by
      intro hq
      rw [hq] at hcl
      exact absurd hcl (by decide)
    have hrev2 : s.data.reverse = cl :: (tl' ++ '.' :: (c0 :: rest).reverse) := by
      rw [hx, List.reverse_append, List.reverse_cons, hrev]
      simp
    rw [stripNL_of_rev_ne s.data cl _ hrev2 hclne, hx]
    exact hasTld_of_decomp (c0 :: rest) tld ht2 hta
  · have hx : s.data = ((c0 :: rest) ++ '.' :: tld) ++ ['\n'] := by
      rw [heq]; simp
    rw [hx, stripNL_append_newline]
    exact hasTld_of_decomp (c0 :: rest) tld ht2 hta

/-- Any word matched by the full LinkedIn pattern starts with `'h'`. -/
theorem linkedin_full_head {u : List Char}
    (h : RE.M (pyAnchorEnd linkedinCore) u) : ∃ t, u = 'h' :: t := by
  obtain ⟨u1, w, rfl, h1, _⟩ := RE.M_cat_iff.mp h
  unfold linkedinCore at h1
  obtain ⟨a, b, rfl, ha, _⟩ := RE.M_cat_iff.mp h1
  rw [M_chr_iff] at ha
  subst ha
  exact ⟨b ++ w, rfl⟩

/-- A nonempty string whose first character is whitespace fails
`validate_linkedin_url`. -/
theorem linkedin_ws_false {lu : String} {c : Char} {cs : List Char}
    (hd : lu.data = c :: cs) (hw : isWsCh c = true) :
    validate_linkedin_url lu = false := by
  unfold validate_linkedin_url
  rw [hd]
  simp only [List.isEmpty_cons, Bool.false_eq_true, if_false]
  cases hb : (pyAnchorEnd linkedinCore).rmatch (c :: cs)
  · rfl
  · exfalso
    obtain ⟨t, ht⟩ := linkedin_full_head ((RE.rmatch_iff _ _).mp hb)
    injection ht with ht1 _
    subst ht1
    exact absurd hw (by decide)

/-- A failing run of the executable matcher refutes language membership. -/
theorem not_M_of_rmatch_false {r : RE} {l : List Char}
    (hf : r.rmatch l = false) : ¬ RE.M r l := by
  intro h
  have hb := (RE.rmatch_iff l r).mpr h
  rw [hf] at hb
  cases hb

/-- Decidable rendering of the shape asserted by the spec for accepted
domains: the whole string splits at a dot into a label of 1-63
alphanumeric-or-hyphen characters that neither starts nor ends with a
hyphen, and an alphabetic TLD of length at least 2. -/
def claimedDomainShapeB (s : String) : Bool :=
  (List.range s.data.length).any (fun i =>
    (s.data[i]? == some '.')
      && decide (1 ≤ i) && decide (i ≤ 63)
      && (s.data.take i).all isAlnumHyCh
      && !((s.data.take i).head? == some '-')
      && !((s.data.take i).getLast? == some '-')
      && decide (2 ≤ s.data.length - (i + 1))
      && (s.data.drop (i + 1)).all isAlphaCh)

/-- C6 (amended): every string accepted by `validate_domain` consists of a
label of 1-63 alphanumeric/hyphen characters that does not start with a
hyphen - but may end with one unless the label has the full length 63 -
followed by a dot and an alphabetic TLD of length at least 2, optionally
followed by a single trailing newline (Python `$` semantics).  The original
claim's "never accepts a label ending with a hyphen" is refuted by
`C6_counterexample`. -/
theorem C6_domain_accepted_shape :
    ∀ s : String, validate_domain s = true → DomainShape s :=
  fun _ h => domainShape_of_valid h

theorem C6_domain_accepted_shape_witness : DomainShape "ab.co" :=
  C6_domain_accepted_shape "ab.co" (by decide)

/-- C6 counterexample: `"a-.com"` is accepted although its only
label/TLD decomposition has the label `"a-"`, which ends with a hyphen, so
the claimed shape fails. -/
theorem C6_counterexample :
    validate_domain "a-.com" = true ∧ claimedDomainShapeB "a-.com" = false :=
  ⟨by decide, by decide⟩

/-- C7 (amended): every string in the language of the documented pattern is
accepted; the empty string is rejected; and every string that - after
removal of at most one trailing newline - lacks a dot-separated alphabetic
suffix of length at least 2 is rejected.  The original claim, without the
newline removal, is refuted by `C7_counterexample`. -/
theorem C7_domain_pattern_correct :
    (∀ s : String, RE.M domainCore s.data → validate_domain s = true) ∧
    validate_domain "" = false ∧
    (∀ s : String, hasTldSuffixB (stripNL s.data) = false →
      validate_domain s = false) := by
  refine ⟨fun s h => valid_of_core h, by decide, ?_⟩
  intro s h
  cases hv : validate_domain s
  · rfl
  · rw [tldSuffix_of_valid hv] at h
    cases h

theorem C7_domain_pattern_correct_witness :
    validate_domain "cd.org" = true ∧ validate_domain "nodotshere" = false :=
  ⟨C7_domain_pattern_correct.1 "cd.org"
      ((RE.rmatch_iff "cd.org".data domainCore).mp (by decide)),
    C7_domain_pattern_correct.2.2 "nodotshere" (by decide)⟩

/-- C7 counterexample: `"a.com\n"` has no dot-separated alphabetic suffix
(its last character is a newline), yet `validate_domain` accepts it. -/
theorem C7_counterexample :
    hasTldSuffixB "a.com\n".data = false ∧ validate_domain "a.com\n" = true :=
  ⟨by decide, by decide⟩

/-- C8 (amended): `validate_linkedin_url` accepts the empty string; a
nonempty string is accepted exactly when it is in the language of the
documented pattern followed by an optional single trailing newline; and the
three concrete examples behave as stated.  The original claim's iff against
the bare pattern is refuted by `C8_counterexample`. -/
theorem C8_linkedin_validator :
    validate_linkedin_url "" = true ∧
    (∀ s : String, s ≠ "" →
      (validate_linkedin_url s = true ↔
        RE.M (pyAnchorEnd linkedinCore) s.data)) ∧
    validate_linkedin_url "https://linkedin.com/in/janedoe" = true ∧
    validate_linkedin_url "https://linkedin.com/in/jane doe" = false ∧
    validate_linkedin_url "ftp://linkedin.com/in/jane" = false := by
  refine ⟨by decide, ?_, by decide, by decide, by decide⟩
  intro s hs
  have he : s.data.isEmpty = false := by
    cases hq : s.data.isEmpty
    · rfl
    · exact absurd (String.ext ((List.isEmpty_iff.mp hq).trans rfl)) hs
  unfold validate_linkedin_url
  rw [he]
  simp only [Bool.false_eq_true, if_false]
  exact RE.rmatch_iff s.data (pyAnchorEnd linkedinCore)

theorem C8_linkedin_validator_witness :
    RE.M (pyAnchorEnd linkedinCore) "https://linkedin.com/in/a".data :=
  (C8_linkedin_validator.2.1 "https://linkedin.com/in/a" (by decide)).mp
    (by decide)

/-- C8 counterexample: a LinkedIn URL with a trailing newline is accepted by
the code but is not in the language of the documented pattern. -/
theorem C8_counterexample :
    validate_linkedin_url "https://linkedin.com/company/acme\n" = true ∧
    ¬ RE.M linkedinCore "https://linkedin.com/company/acme\n".data :=
  ⟨by decide, not_M_of_rmatch_false (by decide)⟩

/-- C10: each validator accepts an otherwise-valid value followed by a
single trailing newline, although that string is not an exact match of the
documented pattern - the consequence of `re.match` with a final `$` in
Python (encoded by `pyAnchorEnd`). -/
theorem C10_trailing_newline :
    validate_domain "example.com\n" = true ∧
    validate_email "a@b.co\n" = true ∧
    validate_linkedin_url "https://linkedin.com/in/janedoe\n" = true ∧
    ¬ RE.M domainCore "example.com\n".data ∧
    ¬ RE.M emailCore "a@b.co\n".data ∧
    ¬ RE.M linkedinCore "https://linkedin.com/in/janedoe\n".data :=
  ⟨by decide, by decide, by decide,
    not_M_of_rmatch_false (by decide),
    not_M_of_rmatch_false (by decide),
    not_M_of_rmatch_false (by decide)⟩

/-- C1 (amended): the formatter substitutes the literal fallback `"N/A"`
exactly when the payload key is absent; a key that is present but maps to a
falsy value (such as the empty string) renders as that value's string form,
not as `N/A`.  The original "absent or falsy" claim is refuted by
`C1_counterexample`. -/
theorem C1_fallback_on_absent_only :
    ∀ (o : List (String × JValue)) (label k : String),
      (jget o k = none →
        fieldLine label (.obj o) k =
          "• **" ++ label ++ ":** " ++ "N/A" ++ "\n") ∧
      (∀ v, jget o k = some v →
        fieldLine label (.obj o) k =
          "• **" ++ label ++ ":** " ++ pyStr v ++ "\n") := by
  intro o label k
  constructor
  · intro h
    simp [fieldLine, getF, jvGet, h]
  · intro v h
    simp [fieldLine, getF, jvGet, h]

theorem C1_fallback_on_absent_only_witness :
    fieldLine "Name" (.obj [("name", JValue.str "")]) "name" =
      "• **Name:** \n" ∧
    fieldLine "Website" (.obj []) "website_url" = "• **Website:** N/A\n" :=
  ⟨((C1_fallback_on_absent_only [("name", .str "")] "Name" "name").2
      (.str "") rfl).trans (by decide),
    ((C1_fallback_on_absent_only [] "Website" "website_url").1 rfl).trans
      (by decide)⟩

/-- C1 counterexample: a success payload in which `name` is present but maps
to the empty string.  The Name line of the output renders empty instead of
showing `N/A`, refuting "substitutes N/A ... when ... its value is falsy". -/
theorem C1_counterexample :
    jget [("name", JValue.str "")] "name" = some (.str "") ∧
    truthy (.str "") = false ∧
    enrich_company_data
        (fun _ => .ok [("organization", .obj [("name", .str "")])])
        "key" "example.com" "" "" "" =
      "✅ Company data enriched successfully\n\n📊 **Enriched Company Data:**\n• **Name:** \n• **Domain:** N/A\n• **Website:** N/A\n• **LinkedIn:** N/A\n• **Industry:** N/A\n• **Company Size:** N/A\n• **Location:** N/A, N/A, N/A\n• **Founded:** N/A\n• **Description:** N/A\n" :=
  ⟨rfl, rfl, by decide⟩

/-- C2: the four pre-flight checks run in source order, the first failing
check fixes the returned error text, a failing check makes the output
independent of the network client (no call observable), and in particular
the all-empty API key example returns the key-required text. -/
theorem C2_preflight_checks :
    (∀ (c1 c2 : List (String × String) → HttpOutcome)
        (key dom lu cn cc : String),
      (pyBlank key = true ∨ pyBlank dom = true ∨ validate_domain dom = false ∨
        (lu.data.isEmpty = false ∧ validate_linkedin_url lu = false)) →
      enrich_company_data c1 key dom lu cn cc =
        enrich_company_data c2 key dom lu cn cc) ∧
    (∀ (c1 c2 : List (String × String) → HttpOutcome)
        (key em lu fn ln : String),
      (pyBlank key = true ∨ pyBlank em = true ∨ validate_email em = false ∨
        (lu.data.isEmpty = false ∧ validate_linkedin_url lu = false)) →
      enrich_contact_data c1 key em lu fn ln =
        enrich_contact_data c2 key em lu fn ln) ∧
    (∀ client key dom lu cn cc, pyBlank key = true →
      enrich_company_data client key dom lu cn cc =
        "❌ Error: Please enter your Apollo API key") ∧
    (∀ client key dom lu cn cc, pyBlank key = false → pyBlank dom = true →
      enrich_company_data client key dom lu cn cc =
        "❌ Error: Company domain is required") ∧
    (∀ client key dom lu cn cc, pyBlank key = false → pyBlank dom = false →
      validate_domain dom = false →
      enrich_company_data client key dom lu cn cc =
        "❌ Error: Please enter a valid domain (e.g., example.com)") ∧
    (∀ client key dom lu cn cc, pyBlank key = false → pyBlank dom = false →
      validate_domain dom = true → lu.data.isEmpty = false →
      validate_linkedin_url lu = false →
      enrich_company_data client key dom lu cn cc =
        "❌ Error: Please enter a valid LinkedIn URL (e.g., https://linkedin.com/company/example)") ∧
    (∀ client key em lu fn ln, pyBlank key = true →
      enrich_contact_data client key em lu fn ln =
        "❌ Error: Please enter your Apollo API key") ∧
    (∀ client key em lu fn ln, pyBlank key = false → pyBlank em = true →
      enrich_contact_data client key em lu fn ln =
        "❌ Error: Email address is required") ∧
    (∀ client key em lu fn ln, pyBlank key = false → pyBlank em = false →
      validate_email em = false →
      enrich_contact_data client key em lu fn ln =
        "❌ Error: Please enter a valid email address") ∧
    (∀ client key em lu fn ln, pyBlank key = false → pyBlank em = false →
      validate_email em = true → lu.data.isEmpty = false →
      validate_linkedin_url lu = false →
      enrich_contact_data client key em lu fn ln =
        "❌ Error: Please enter a valid LinkedIn URL (e.g., https://linkedin.com/in/username)") ∧
    (∀ client, enrich_company_data client "" "example.com" "" "" "" =
      "❌ Error: Please enter your Apollo API key") := by
  refine ⟨?_, ?_, ?_, ?_, ?_, ?_, ?_, ?_, ?_, ?_, ?_⟩
  · intro c1 c2 key dom lu cn cc h
    by_cases h1 : pyBlank key = true
    · simp [enrich_company_data, h1]
    · have h1' : pyBlank key = false := by simpa using h1
      by_cases h2 : pyBlank dom = true
      · simp [enrich_company_data, h1', h2]
      · have h2' : pyBlank dom = false := by simpa using h2
        by_cases h3 : validate_domain dom = true
        · rcases h with hx | hx | hx | ⟨hne, hlv⟩
          · exact absurd hx h1
          · exact absurd hx h2
          · rw [h3] at hx; cases hx
          · simp [enrich_company_data, h1', h2', h3, hne, hlv]
        · have h3' : validate_domain dom = false := by simpa using h3
          simp [enrich_company_data, h1', h2', h3']
  · intro c1 c2 key em lu fn ln h
    by_cases h1 : pyBlank key = true
    · simp [enrich_contact_data, h1]
    · have h1' : pyBlank key = false := by simpa using h1
      by_cases h2 : pyBlank em = true
      · simp [enrich_contact_data, h1', h2]
      · have h2' : pyBlank em = false := by simpa using h2
        by_cases h3 : validate_email em = true
        · rcases h with hx | hx | hx | ⟨hne, hlv⟩
          · exact absurd hx h1
          · exact absurd hx h2
          · rw [h3] at hx; cases hx
          · simp [enrich_contact_data, h1', h2', h3, hne, hlv]
        · have h3' : validate_email em = false := by simpa using h3
          simp [enrich_contact_data, h1', h2', h3']
  · intro client key dom lu cn cc h1
    simp [enrich_company_data, h1]
  · intro client key dom lu cn cc h1 h2
    simp [enrich_company_data, h1, h2]
  · intro client key dom lu cn cc h1 h2 h3
    simp [enrich_company_data, h1, h2, h3]
  · intro client key dom lu cn cc h1 h2 h3 h4 h5
    simp [enrich_company_data, h1, h2, h3, h4, h5]
  · intro client key em lu fn ln h1
    simp [enrich_contact_data, h1]
  · intro client key em lu fn ln h1 h2
    simp [enrich_contact_data, h1, h2]
  · intro client key em lu fn ln h1 h2 h3
    simp [enrich_contact_data, h1, h2, h3]
  · intro client key em lu fn ln h1 h2 h3 h4 h5
    simp [enrich_contact_data, h1, h2, h3, h4, h5]
  · intro client
    have hk : pyBlank "" = true := rfl
    simp [enrich_company_data, hk]

theorem C2_preflight_checks_witness :
    enrich_company_data (fun _ => .ok []) " " "x" "" "" "" =
      "❌ Error: Please enter your Apollo API key" ∧
    enrich_company_data (fun _ => .ok []) "k" "  " "" "" "" =
      "❌ Error: Company domain is required" ∧
    enrich_company_data (fun _ => .ok []) "k" "bad" "" "" "" =
      "❌ Error: Please enter a valid domain (e.g., example.com)" ∧
    enrich_company_data (fun _ => .ok []) "k" "ab.co" "xy" "" "" =
      "❌ Error: Please enter a valid LinkedIn URL (e.g., https://linkedin.com/company/example)" ∧
    enrich_contact_data (fun _ => .ok []) " " "a@b.co" "" "" "" =
      "❌ Error: Please enter your Apollo API key" ∧
    enrich_contact_data (fun _ => .ok []) "k" " " "" "" "" =
      "❌ Error: Email address is required" ∧
    enrich_contact_data (fun _ => .ok []) "k" "bademail" "" "" "" =
      "❌ Error: Please enter a valid email address" ∧
    enrich_contact_data (fun _ => .ok []) "k" "a@b.co" "xy" "" "" =
      "❌ Error: Please enter a valid LinkedIn URL (e.g., https://linkedin.com/in/username)" ∧
    enrich_company_data (fun _ => .httpErr 500 "boom") " " "x" "" "" "" =
      enrich_company_data (fun _ => .ok []) " " "x" "" "" "" :=
  ⟨C2_preflight_checks.2.2.1 _ " " "x" "" "" "" (by decide),
    C2_preflight_checks.2.2.2.1 _ "k" "  " "" "" "" (by decide) (by decide),
    C2_preflight_checks.2.2.2.2.1 _ "k" "bad" "" "" ""
      (by decide) (by decide) (by decide),
    C2_preflight_checks.2.2.2.2.2.1 _ "k" "ab.co" "xy" "" ""
      (by decide) (by decide) (by decide) (by decide) (by decide),
    C2_preflight_checks.2.2.2.2.2.2.1 _ " " "a@b.co" "" "" "" (by decide),
    C2_preflight_checks.2.2.2.2.2.2.2.1 _ "k" " " "" "" ""
      (by decide) (by decide),
    C2_preflight_checks.2.2.2.2.2.2.2.2.1 _ "k" "bademail" "" "" ""
      (by decide) (by decide) (by decide),
    C2_preflight_checks.2.2.2.2.2.2.2.2.2.1 _ "k" "a@b.co" "xy" "" ""
      (by decide) (by decide) (by decide) (by decide) (by decide),
    C2_preflight_checks.1 _ _ " " "x" "" "" "" (Or.inl (by decide))⟩

/-- C3: the outcome normalization of the client is total - every HTTP
outcome (200 body, non-200 status, transport failure, unexpected failure)
maps to a result value, never an escaping exception; non-200 embeds the
status code and raw body, a transport failure embeds the exception text, and
any other failure carries the generic unexpected-error message. -/
theorem C3_outcome_normalization :
    (∀ outcome, (handleCompanyOutcome outcome).status = "success" ∨
      (handleCompanyOutcome outcome).status = "error") ∧
    (∀ outcome, (handleContactOutcome outcome).status = "success" ∨
      (handleContactOutcome outcome).status = "error") ∧
    (∀ (code : Nat) (text : String),
      handleCompanyOutcome (.httpErr code text) =
        ⟨"error", .obj [], "API Error: " ++ toString code ++ " - " ++ text⟩ ∧
      handleContactOutcome (.httpErr code text) =
        ⟨"error", .obj [], "API Error: " ++ toString code ++ " - " ++ text⟩) ∧
    (∀ e : String,
      handleCompanyOutcome (.requestExc e) =
        ⟨"error", .obj [], "Request failed: " ++ e⟩ ∧
      handleContactOutcome (.requestExc e) =
        ⟨"error", .obj [], "Request failed: " ++ e⟩) ∧
    (∀ e : String,
      handleCompanyOutcome (.otherExc e) =
        ⟨"error", .obj [], "Unexpected error: " ++ e⟩ ∧
      handleContactOutcome (.otherExc e) =
        ⟨"error", .obj [], "Unexpected error: " ++ e⟩) ∧
    (∀ body,
      (handleCompanyOutcome (.ok body)).status = "success" ∧
      (handleContactOutcome (.ok body)).status = "success") := by
  refine ⟨?_, ?_, fun code text => ⟨rfl, rfl⟩, fun e => ⟨rfl, rfl⟩,
    fun e => ⟨rfl, rfl⟩, fun body => ⟨rfl, rfl⟩⟩
  · intro outcome
    cases outcome
    · exact Or.inl rfl
    · exact Or.inr rfl
    · exact Or.inr rfl
    · exact Or.inr rfl
  · intro outcome
    cases outcome
    · exact Or.inl rfl
    · exact Or.inr rfl
    · exact Or.inr rfl
    · exact Or.inr rfl

/-- C4: result invariant of both client calls - a success result's payload
is the decoded value under the organization / person key (empty mapping when
absent); an error result's payload is the empty mapping and its message is
nonempty. -/
theorem C4_result_invariant : ∀ outcome : HttpOutcome,
    ((handleCompanyOutcome outcome).status = "success" →
      ∃ body, outcome = .ok body ∧
        (handleCompanyOutcome outcome).data =
          (jget body "organization").getD (.obj [])) ∧
    ((handleCompanyOutcome outcome).status = "error" →
      (handleCompanyOutcome outcome).data = .obj [] ∧
      (handleCompanyOutcome outcome).message ≠ "") ∧
    ((handleContactOutcome outcome).status = "success" →
      ∃ body, outcome = .ok body ∧
        (handleContactOutcome outcome).data =
          (jget body "person").getD (.obj [])) ∧
    ((handleContactOutcome outcome).status = "error" →
      (handleContactOutcome outcome).data = .obj [] ∧
      (handleContactOutcome outcome).message ≠ "") := by
  intro outcome
  cases outcome with
  | ok body =>
      refine ⟨fun _ => ⟨body, rfl, rfl⟩,
        fun h => absurd (show ("success" : String) = "error" from h) (by decide),
        fun _ => ⟨body, rfl, rfl⟩,
        fun h => absurd (show ("success" : String) = "error" from h) (by decide)⟩
  | httpErr code text =>
      have hm : ("API Error: " ++ toString code ++ " - " ++ text) ≠ "" := by
        intro he
        have hl := congrArg String.length he
        rw [String.length_append, String.length_append,
          String.length_append] at hl
        have e1 : "API Error: ".length = 11 := rfl
        have e2 : " - ".length = 3 := rfl
        have e3 : ("" : String).length = 0 := rfl
        omega
      exact ⟨fun h =>
          absurd (show ("error" : String) = "success" from h) (by decide),
        fun _ => ⟨rfl, hm⟩,
        fun h =>
          absurd (show ("error" : String) = "success" from h) (by decide),
        fun _ => ⟨rfl, hm⟩⟩
  | requestExc e =>
      have hm : ("Request failed: " ++ e) ≠ "" := by
        intro he
        have hl := congrArg String.length he
        rw [String.length_append] at hl
        have e1 : "Request failed: ".length = 16 := rfl
        have e2 : ("" : String).length = 0 := rfl
        omega
      exact ⟨fun h =>
          absurd (show ("error" : String) = "success" from h) (by decide),
        fun _ => ⟨rfl, hm⟩,
        fun h =>
          absurd (show ("error" : String) = "success" from h) (by decide),
        fun _ => ⟨rfl, hm⟩⟩
  | otherExc e =>
      have hm : ("Unexpected error: " ++ e) ≠ "" := by
        intro he
        have hl := congrArg String.length he
        rw [String.length_append] at hl
        have e1 : "Unexpected error: ".length = 18 := rfl
        have e2 : ("" : String).length = 0 := rfl
        omega
      exact ⟨fun h =>
          absurd (show ("error" : String) = "success" from h) (by decide),
        fun _ => ⟨rfl, hm⟩,
        fun h =>
          absurd (show ("error" : String) = "success" from h) (by decide),
        fun _ => ⟨rfl, hm⟩⟩

theorem C4_result_invariant_witness :
    (handleCompanyOutcome (.httpErr 404 "nf")).data = JValue.obj [] ∧
    (handleCompanyOutcome (.httpErr 404 "nf")).message ≠ "" ∧
    (∃ body,
      HttpOutcome.ok
          ([("organization", JValue.obj [])] : List (String × JValue)) =
        .ok body ∧
      (handleCompanyOutcome (.ok [("organization", JValue.obj [])])).data =
        (jget body "organization").getD (.obj [])) :=
  ⟨((C4_result_invariant (.httpErr 404 "nf")).2.1 rfl).1,
    ((C4_result_invariant (.httpErr 404 "nf")).2.1 rfl).2,
    (C4_result_invariant (.ok [("organization", JValue.obj [])])).1 rfl⟩

/-- C5 (amended): optional fields are trimmed before being placed in the
outbound request, and an optional field that is empty after trimming is
omitted from the request body; but the LinkedIn pre-flight check validates
the raw untrimmed value, so a LinkedIn URL consisting only of whitespace
produces the LinkedIn-format error (refuting "treated as absent"; see
`C5_counterexample`). -/
theorem C5_optional_field_handling :
    (∀ s : String, optTruthy (pyOptStrip s) = !pyBlank s) ∧
    (∀ s t : String, pyOptStrip s = some t → t = pyStrip s) ∧
    (∀ (client : List (String × String) → HttpOutcome)
        (key dom lu cn cc : String),
      pyBlank key = false → pyBlank dom = false → validate_domain dom = true →
      lu.data ≠ [] → (∀ c ∈ lu.data, isWsCh c = true) →
      enrich_company_data client key dom lu cn cc =
        "❌ Error: Please enter a valid LinkedIn URL (e.g., https://linkedin.com/company/example)") ∧
    (∀ (client : List (String × String) → HttpOutcome)
        (key em lu fn ln : String),
      pyBlank key = false → pyBlank em = false → validate_email em = true →
      lu.data ≠ [] → (∀ c ∈ lu.data, isWsCh c = true) →
      enrich_contact_data client key em lu fn ln =
        "❌ Error: Please enter a valid LinkedIn URL (e.g., https://linkedin.com/in/username)") := by
  refine ⟨?_, ?_, ?_, ?_⟩
  · intro s
    cases hd : s.data.isEmpty
    · have h1 : pyOptStrip s = some (pyStrip s) := by
        simp [pyOptStrip, hd]
      rw [h1]
      rfl
    · have h1 : pyOptStrip s = none := by simp [pyOptStrip, hd]
      have h3 : s.data = [] := List.isEmpty_iff.mp hd
      have h2 : pyBlank s = true := by simp [pyBlank, h3, stripWs]
      rw [h1, h2]
      rfl
  · intro s t h
    by_cases hd : s.data.isEmpty = true
    · simp [pyOptStrip, hd] at h
    · simp [pyOptStrip, hd] at h
      exact h.symm
  · intro client key dom lu cn cc hk hd hv hne hws
    obtain ⟨c, cs, hcons⟩ : ∃ c cs, lu.data = c :: cs := by
      cases hq : lu.data with
      | nil => exact absurd hq hne
      | cons c cs => exact ⟨c, cs, rfl⟩
    have hwc : isWsCh c = true :=
      hws c (by rw [hcons]; exact List.mem_cons_self c cs)
    have hlv : validate_linkedin_url lu = false := linkedin_ws_false hcons hwc
    have hle : lu.data.isEmpty = false := by rw [hcons]; rfl
    simp [enrich_company_data, hk, hd, hv, hle, hlv]
  · intro client key em lu fn ln hk hd hv hne hws
    obtain ⟨c, cs, hcons⟩ : ∃ c cs, lu.data = c :: cs := by
      cases hq : lu.data with
      | nil => exact absurd hq hne
      | cons c cs => exact ⟨c, cs, rfl⟩
    have hwc : isWsCh c = true :=
      hws c (by rw [hcons]; exact List.mem_cons_self c cs)
    have hlv : validate_linkedin_url lu = false := linkedin_ws_false hcons hwc
    have hle : lu.data.isEmpty = false := by rw [hcons]; rfl
    simp [enrich_contact_data, hk, hd, hv, hle, hlv]

theorem C5_optional_field_handling_witness :
    enrich_company_data (fun _ => .ok []) "k" "ab.co" " " "" "" =
      "❌ Error: Please enter a valid LinkedIn URL (e.g., https://linkedin.com/company/example)" ∧
    enrich_contact_data (fun _ => .ok []) "k" "a@b.co" " " "" "" =
      "❌ Error: Please enter a valid LinkedIn URL (e.g., https://linkedin.com/in/username)" :=
  ⟨C5_optional_field_handling.2.2.1 _ "k" "ab.co" " " "" ""
      (by decide) (by decide) (by decide) (by decide) (by decide),
    C5_optional_field_handling.2.2.2 _ "k" "a@b.co" " " "" ""
      (by decide) (by decide) (by decide) (by decide) (by decide)⟩

/-- C5 counterexample: a LinkedIn URL of three spaces is whitespace-only,
yet the call returns the LinkedIn-format error instead of treating the field
as absent. -/
theorem C5_counterexample :
    (("   " : String).data.all isWsCh = true) ∧
    enrich_company_data (fun _ => .ok []) "key" "example.com" "   " "" "" =
      "❌ Error: Please enter a valid LinkedIn URL (e.g., https://linkedin.com/company/example)" :=
  ⟨by decide, by decide⟩

/-- C9: with a nonblank API key, domain `example.com`, empty optional
fields, and a client answering HTTP 200 with the organization payload
`{"name": "Example Corp", "domain": "example.com"}`, the output is exactly
the success header followed by the nine fields in their fixed order, with
`N/A` for every absent field. -/
theorem C9_success_formatting : ∀ key : String, pyBlank key = false →
    enrich_company_data
      (fun _ => .ok [("organization",
        .obj [("name", .str "Example Corp"), ("domain", .str "example.com")])])
      key "example.com" "" "" "" =
      "✅ Company data enriched successfully\n\n📊 **Enriched Company Data:**\n• **Name:** Example Corp\n• **Domain:** example.com\n• **Website:** N/A\n• **LinkedIn:** N/A\n• **Industry:** N/A\n• **Company Size:** N/A\n• **Location:** N/A, N/A, N/A\n• **Founded:** N/A\n• **Description:** N/A\n" := by
  intro key h
  unfold enrich_company_data
  simp only [h]
  decide

theorem C9_success_formatting_witness :
    enrich_company_data
      (fun _ => .ok [("organization",
        .obj [("name", .str "Example Corp"), ("domain", .str "example.com")])])
      "k" "example.com" "" "" "" =
      "✅ Company data enriched successfully\n\n📊 **Enriched Company Data:**\n• **Name:** Example Corp\n• **Domain:** example.com\n• **Website:** N/A\n• **LinkedIn:** N/A\n• **Industry:** N/A\n• **Company Size:** N/A\n• **Location:** N/A, N/A, N/A\n• **Founded:** N/A\n• **Description:** N/A\n" :=
  C9_success_formatting "k" (by decide)

end Apollo
